import Mathlib

/-!
# Verification of the gofile multi-host upload orchestrator

This file gives a shallow embedding, in Lean 4, of the core logic of the
`gofile` drag-and-drop uploader (files `drag_drop_uploader.py`,
`gofile_api.py`, `buzzheavier_api.py`, `pixeldrain_api.py`) and proves
properties of that embedding.  Python dictionaries are modelled as
association lists (first binding wins on lookup, as for a Python `dict`
that never holds duplicate keys), machine integers and wall-clock times as
`Int`/`Nat`, and fallible code as `Except`/`Option` values.  Exceptions of
the original program are explicit error values; `try`/`except` blocks
become filters on those values.
-/

set_option autoImplicit false

namespace GofileSpec

/-! ## Generic association-list helpers (model of Python `dict` access) -/

/-- `d.get(k)` on a Python dict modelled as an association list. -/
def lookupKey {α : Type} (l : List (String × α)) (k : String) : Option α :=
  (l.find? (fun kv => kv.fst == k)).map (fun kv => kv.snd)

/-- `d[k] = v` on a Python dict modelled as an association list: replace the
binding in place when the key is present, append it otherwise. -/
def setKey {α : Type} (l : List (String × α)) (k : String) (v : α) : List (String × α) :=
  if l.any (fun kv => kv.fst == k) then
    l.map (fun kv => if kv.fst == k then (k, v) else kv)
  else
    l ++ [(k, v)]

/-! ## Filename parser (`DragDropUploader.parse_apk_filename`)

The source matches `name_without_ext` against the Python regular expression

  `^(.+?)-([0-9]+(?:\.[0-9]+)*(?:[a-zA-Z0-9\+\.]*))(?:-.*)?$`

with `re.match`.  The embedding below implements the backtracking search of
this specific pattern: the non-greedy group `(.+?)` is the explicit
shortest-first loop `goMatch`; the version group is matched greedily by
`versionMatch` (for this pattern the greedy candidate is the first one the
backtracking engine tries, and whenever it reaches a position where the
trailing `(?:-.*)?$` fails, every shorter candidate of the version group
stops at a character from `[a-zA-Z0-9+.]`, where the trailing pattern fails
as well, so backtracking inside the version group never changes the result);
`.` never matches a newline and `$` accepts the end of the string or a
position just before a terminal newline, as in Python's default mode. -/

/-- The character class `[a-zA-Z0-9\+\.]` of the version sub-pattern. -/
def isVchar (c : Char) : Bool :=
  c.isAlphanum || c == '+' || c == '.'

/-- Greedy match of `(?:\.[0-9]+)*`: returns the consumed prefix and the
rest.  `fuel` only bounds the recursion; it is always called with at least
the length of the input, which one dot-digit group per step can never
exhaust. -/
def dotGroups : Nat → List Char → List Char × List Char
  | 0, cs => ([], cs)
  | fuel + 1, cs =>
    match cs with
    | c :: rest =>
      if c == '.' then
        let ds := rest.takeWhile Char.isDigit
        if ds.isEmpty then ([], cs)
        else
          let gr := dotGroups fuel (rest.dropWhile Char.isDigit)
          (c :: (ds ++ gr.fst), gr.snd)
      else ([], cs)
    | [] => ([], cs)

/-- Greedy match of the version group
`[0-9]+(?:\.[0-9]+)*(?:[a-zA-Z0-9\+\.]*)`: returns the captured text and
the rest of the input, or `none` when the group cannot match here. -/
def versionMatch (cs : List Char) : Option (List Char × List Char) :=
  let d1 := cs.takeWhile Char.isDigit
  if d1.isEmpty then none
  else
    let r1 := cs.dropWhile Char.isDigit
    let gr := dotGroups r1.length r1
    let suf := gr.snd.takeWhile isVchar
    some (d1 ++ (gr.fst ++ suf), gr.snd.dropWhile isVchar)

/-- Python `$` in default mode: matches at the end of the string, or just
before a newline that ends the string. -/
def dollarOk : List Char → Bool
  | [] => true
  | [c] => c == '\n'
  | _ :: _ :: _ => false

/-- `.*$` with backtracking: `.` matches any character except a newline. -/
def dotStarDollar : List Char → Bool
  | [] => true
  | c :: rest => dollarOk (c :: rest) || (c != '\n' && dotStarDollar rest)

/-- The trailing `(?:-.*)?$` of the pattern. -/
def tailOk (cs : List Char) : Bool :=
  dollarOk cs ||
    (match cs with
     | c :: rest => c == '-' && dotStarDollar rest
     | [] => false)

/-- One attempt of the engine at a fixed package/hyphen split: match the
version group against the text after the hyphen, then the trailing
`(?:-.*)?$`; returns the captured version on success. -/
def pyAttempt (after : List Char) : Option (List Char) :=
  match versionMatch after with
  | some vr => if tailOk vr.snd then some vr.fst else none
  | none => none

/-- The non-greedy loop of `^(.+?)-…`: try the shortest package first,
extend it by one character (never across a newline, which `.` cannot
match) when the rest of the pattern fails. -/
def goMatch : List Char → List Char → Option (List Char × List Char)
  | _, [] => none
  | pkgRev, c :: rest =>
    if c == '\n' then none
    else
      match rest with
      | r :: after =>
        if r == '-' then
          match pyAttempt after with
          | some v => some ((c :: pkgRev).reverse, v)
          | none => goMatch (c :: pkgRev) rest
        else goMatch (c :: pkgRev) rest
      | [] => goMatch (c :: pkgRev) rest

/-- `re.match` of the whole pattern: `some (package, version)` on success. -/
def pyMatch (cs : List Char) : Option (List Char × List Char) :=
  goMatch [] cs

/-- Result dictionary of `parse_apk_filename`. -/
structure ApkParseResult where
  package : String
  version : String
  full_name : String
  filename : String
deriving DecidableEq, Repr

/-- `DragDropUploader.parse_apk_filename`: reject filenames whose lowercase
form does not end in `.apk`, strip the last four characters
(`filename[:-4]`), and match the remainder against the pattern. -/
def parse_apk_filename (filename : String) : Option ApkParseResult :=
  if !(filename.toLower.endsWith ".apk") then none
  else
    let name_without_ext := String.mk (filename.toList.take (filename.toList.length - 4))
    match pyMatch name_without_ext.toList with
    | some pv => some ⟨String.mk pv.fst, String.mk pv.snd, name_without_ext, filename⟩
    | none => none

/-! ### Specification-side characterization of the parser (§4.1, §8)

The following definitions restate the specification's description of
`parse`: the version token is one or more dot-separated numeric groups
optionally followed by suffix characters from `[a-zA-Z0-9+.]` with no
embedded hyphen, and the package is matched non-greedily up to the first
hyphen that begins a syntactically valid version token.  They exist only to
be compared with the regex-based `parse_apk_filename` above. -/

/-- `[0-9]+(\.[0-9]+)*` as a whole-string predicate: `expectGroup = true`
means a fresh numeric group must start here. -/
def specGroupsAux : Bool → List Char → Bool
  | true, [] => false
  | false, [] => true
  | true, c :: rest => c.isDigit && specGroupsAux false rest
  | false, c :: rest =>
    if c == '.' then specGroupsAux true rest else c.isDigit && specGroupsAux false rest

/-- One or more dot-separated numeric groups, covering the whole input. -/
def specNumericGroups (cs : List Char) : Bool :=
  specGroupsAux true cs

/-- The specification's version token: numeric groups followed by optional
suffix characters from `[a-zA-Z0-9+.]`. -/
def specVersionToken (cs : List Char) : Bool :=
  (List.range (cs.length + 1)).any
    (fun k => specNumericGroups (cs.take k) && (cs.drop k).all isVchar)

/-- Closed form of the version-token language, used by the proofs: a
non-empty string over `[a-zA-Z0-9+.]` whose first character is a digit. -/
def goodToken : List Char → Bool
  | [] => false
  | c :: rest => c.isDigit && (c :: rest).all isVchar

/-- The segment of the remainder up to its first hyphen (the candidate
version token, which may contain no embedded hyphen). -/
def takeUntilHyphen (cs : List Char) : List Char :=
  cs.takeWhile (fun c => c != '-')

/-- Specification-side attempt at a fixed hyphen split: succeed exactly
when the remainder up to the next hyphen is a valid version token. -/
def specAttempt (after : List Char) : Option (List Char) :=
  if specVersionToken (takeUntilHyphen after) then some (takeUntilHyphen after) else none

/-- Specification-side search: the package is everything before the first
hyphen whose remainder begins a valid version token. -/
def specFind : List Char → List Char → Option (List Char × List Char)
  | _, [] => none
  | pkgRev, c :: rest =>
    match rest with
    | r :: after =>
      if r == '-' then
        match specAttempt after with
        | some v => some ((c :: pkgRev).reverse, v)
        | none => specFind (c :: pkgRev) rest
      else specFind (c :: pkgRev) rest
    | [] => specFind (c :: pkgRev) rest

/-- The specification's contract for `parse`, assembled from `specFind`. -/
def parse_apk_claim (filename : String) : Option ApkParseResult :=
  if !(filename.toLower.endsWith ".apk") then none
  else
    let name_without_ext := String.mk (filename.toList.take (filename.toList.length - 4))
    match specFind [] name_without_ext.toList with
    | some pv => some ⟨String.mk pv.fst, String.mk pv.snd, name_without_ext, filename⟩
    | none => none

/-! ## Folder cache store (`save_folder_cache`, `load_folder_cache`)

The persisted cache is a JSON document; we model JSON values by `JVal` and
a JSON object by an association list of fields. -/

/-- A JSON value, as produced by `json.load`. -/
inductive JVal : Type where
  | null : JVal
  | str (s : String) : JVal
  | num (n : Int) : JVal
  | bool (b : Bool) : JVal
  | obj (fields : List (String × JVal)) : JVal
  | arr (items : List JVal) : JVal

/-- A top-level JSON object (the cache document). -/
abbrev JDoc := List (String × JVal)

/-- `k in d` on a Python dict. -/
def hasKey (d : JDoc) (k : String) : Bool :=
  d.any (fun kv => kv.fst == k)

/-- The migration step inside `load_folder_cache`: a document with a
top-level `timestamp` field and no `gofile` key is the legacy single-host
layout and is wrapped, whole, under the `gofile` key; any other document is
returned unchanged.  (The source also rewrites the migrated document to
disk, so a subsequent load reads the migrated form.) -/
def migrate_cache (d : JDoc) : JDoc :=
  if hasKey d "timestamp" && !(hasKey d "gofile") then [("gofile", JVal.obj d)] else d

/-- `load_folder_cache`: a missing, unreadable or unparsable file is `none`
(the source logs and returns `None`); otherwise the parsed document is
migrated transparently. -/
def load_folder_cache (file : Option JDoc) : Option JDoc :=
  file.map migrate_cache

/-- `save_folder_cache`: read-modify-write.  Load the existing document
(`none` models a missing or unparsable file, which the source replaces by
`{}`), overwrite the named host's entry with
`{timestamp: now, root_folder_id, folders}`, and write the whole document
back. -/
def save_folder_cache (existing : Option JDoc) (host : String) (now_iso : String)
    (root_folder_id : String) (folders : JVal) : JDoc :=
  let cache_data := existing.getD []
  setKey cache_data host
    (JVal.obj [("timestamp", JVal.str now_iso),
               ("root_folder_id", JVal.str root_folder_id),
               ("folders", folders)])

/-! ## Folder-structure builder (`build_folder_structure_for_host`) -/

/-- `CACHE_EXPIRY_HOURS` from `DragDropUploader`. -/
def CACHE_EXPIRY_HOURS : Int := 24

/-- The `parsed` sub-dictionary of a cached folder. -/
structure CachedParsed where
  type : Option String
  package : Option String
deriving DecidableEq, Repr

/-- One cached folder: `{name, parsed: {type, package}}`. -/
structure CachedFolder where
  name : String
  parsed : Option CachedParsed
deriving DecidableEq, Repr

/-- One host's entry of the cache document, as consumed by
`build_folder_structure_for_host` (timestamps in seconds, modelling the
`datetime` arithmetic of the source). -/
structure HostCacheEntry where
  timestamp : Int
  root_folder_id : String
  folders : List (String × CachedFolder)
deriving DecidableEq, Repr

/-- The validity condition of `build_folder_structure_for_host`:
`cache_age <= timedelta(hours=24)` and the stored root folder id equals the
current session's root folder id. -/
def cacheValid (entry : HostCacheEntry) (now : Int) (root_folder_id : String) : Bool :=
  (now - entry.timestamp ≤ CACHE_EXPIRY_HOURS * 3600) && (entry.root_folder_id == root_folder_id)

/-- A child in the Gofile `children` dictionary. -/
structure GfChild where
  type : Option String
  name : String
  isDirectory : Bool
deriving DecidableEq, Repr

/-- A child in the Buzzheavier `children` list. -/
structure BhChild where
  id : String
  name : String
  isDirectory : Bool
deriving DecidableEq, Repr

/-- The `children` field of a root listing, which is a dict for Gofile and
a list for Buzzheavier; the source branches on `isinstance(children, dict)`. -/
inductive ScanChildren : Type where
  | dictFormat (children : List (String × GfChild)) : ScanChildren
  | listFormat (children : List BhChild) : ScanChildren
deriving DecidableEq, Repr

/-- The parent-folder heuristic of the scan: the name contains at least two
dots and no hyphen. -/
def is_parent_name (name : String) : Bool :=
  (name.toList.countP (fun c => c = '.') ≥ 2) && !(name.toList.contains '-')

/-- The cached branch of `build_folder_structure_for_host`: rebuild the
package → folder-id map from the cached folders whose `parsed.type` is
`parent` and whose `parsed.package` is a non-empty string. -/
def parentsFromCache (folders : List (String × CachedFolder))
    (init : List (String × String)) : List (String × String) :=
  folders.foldl
    (fun acc fi =>
      match fi.snd.parsed with
      | some p =>
        if p.type == some "parent" then
          match p.package with
          | some pkg => if pkg == "" then acc else setKey acc pkg fi.fst
          | none => acc
        else acc
      | none => acc)
    init

/-- The scan branch: normalize the two children shapes to `(id, data)`
pairs of directories, keep those passing the parent heuristic, and build
both the in-memory structure and the cache entry to be saved. -/
def scanParents (children : ScanChildren) (init : List (String × String)) :
    List (String × String) × List (String × CachedFolder) :=
  let folders : List (String × String) :=
    match children with
    | .dictFormat cs =>
      (cs.filter (fun c => c.snd.type == some "folder" || c.snd.isDirectory)).map
        (fun c => (c.fst, c.snd.name))
    | .listFormat cs =>
      (cs.filter (fun c => c.isDirectory)).map (fun c => (c.id, c.name))
  folders.foldl
    (fun acc fn =>
      if is_parent_name fn.snd then
        (setKey acc.fst fn.snd fn.fst,
         setKey acc.snd fn.fst ⟨fn.snd, some ⟨some "parent", some fn.snd⟩⟩)
      else acc)
    (init, [])

/-- Outcome of `build_folder_structure_for_host`: the package → folder-id
map, whether the cache was used, and the `save_folder_cache` payload when a
scan ran. -/
structure BuildResult where
  folder_structure : List (String × String)
  used_cache : Bool
  saved : Option (String × List (String × CachedFolder))
deriving DecidableEq, Repr

/-- `build_folder_structure_for_host`: use the host's cache entry exactly
when it exists and passes `cacheValid`; otherwise scan the live root
listing and persist the scan result.  (`scan` is the already-fetched
`children` of the root folder; the source's exception handler around the
scan is not involved on these paths.) -/
def build_folder_structure_for_host (cache_data : Option (List (String × HostCacheEntry)))
    (host : String) (now : Int) (root_folder_id : String) (scan : ScanChildren)
    (init : List (String × String)) : BuildResult :=
  let scanned := scanParents scan init
  let scanResult : BuildResult := ⟨scanned.fst, false, some (root_folder_id, scanned.snd)⟩
  match cache_data with
  | some doc =>
    match lookupKey doc host with
    | some host_cache =>
      if cacheValid host_cache now root_folder_id then
        ⟨parentsFromCache host_cache.folders init, true, none⟩
      else scanResult
    | none => scanResult
  | none => scanResult

/-! ## Gofile per-host upload workflow (`_upload_to_gofile` and helpers)

Python exceptions become explicit `PyExc` values; each `try`/`except`
block of the source is a filter deciding which of them are converted to a
`None`/`False` result and which keep propagating.  Every adapter call is
recorded in a trace so that theorems can speak about which requests were
issued. -/

/-- Exception classes that can cross the uploader/adapter boundary.
`rateLimitExc` is `gofile_api.RateLimitException` (a direct subclass of
`Exception`); `genericExc` is the bare `Exception` that
`GofileAPI._handle_response` raises for HTTP and API-level errors. -/
inductive PyExc : Type where
  | runtimeError : PyExc
  | keyError : PyExc
  | valueError : PyExc
  | osError : PyExc
  | ioError : PyExc
  | rateLimitExc : PyExc
  | genericExc : PyExc
deriving DecidableEq, Repr

/-- One adapter call of the Gofile workflow, for the call trace. -/
inductive ApiCall : Type where
  | getContent (id : String) : ApiCall
  | createFolder (parent name : String) : ApiCall
  | uploadFile (path folder : String) : ApiCall
  | updateContent (id attr value : String) : ApiCall
deriving DecidableEq, Repr

/-- Does the trace entry create a folder? -/
def isCreateFolderCall : ApiCall → Bool
  | .createFolder _ _ => true
  | _ => false

/-- Does the trace entry fetch folder contents? -/
def isGetContentCall : ApiCall → Bool
  | .getContent _ => true
  | _ => false

/-- Result dictionary of `GofileAPI.get_content`, with the fields the
uploader reads (`children`, `link`, `code`); a missing key is `none`. -/
structure GfContent where
  children : Option (List (String × GfChild))
  link : Option String
  code : Option String

/-- The Gofile adapter as the uploader sees it: each operation either
returns its result or raises.  `create_folder` yields `result.get('id')`. -/
structure GofileAPIModel where
  get_content : String → Except PyExc GfContent
  create_folder : String → String → Except PyExc (Option String)
  upload_file : String → String → Except PyExc Unit
  update_content : String → String → String → Except PyExc Unit

/-- The `except (KeyError, ValueError, RuntimeError)` filter used inside
`create_parent_folder`, `create_version_folder`, `make_folder_public` and
`get_folder_link`. -/
def caught_kvr : PyExc → Bool
  | .keyError => true
  | .valueError => true
  | .runtimeError => true
  | _ => false

/-- The two handlers of `_upload_to_gofile` itself:
`except (RuntimeError, KeyError)` and `except (OSError, IOError)`. -/
def caught_by_upload_to_gofile : PyExc → Bool
  | .runtimeError => true
  | .keyError => true
  | .osError => true
  | .ioError => true
  | _ => false

/-- `create_parent_folder`: create a folder under the root named after the
package; `KeyError`/`ValueError`/`RuntimeError` become `None`, other
exceptions propagate. -/
def create_parent_folder (api : GofileAPIModel) (root_folder_id package : String) :
    Except PyExc (Option String) × List ApiCall :=
  match api.create_folder root_folder_id package with
  | .error e =>
    (if caught_kvr e then .ok none else .error e, [.createFolder root_folder_id package])
  | .ok parent_id => (.ok parent_id, [.createFolder root_folder_id package])

/-- `create_version_folder`: fetch the parent's contents; a missing
`children` key (or empty response) is reported as `None`, an existing child
folder of the wanted name is returned, otherwise the folder is created.
`KeyError`/`ValueError`/`RuntimeError` from either adapter call become
`None` (the stale-parent warning path); other exceptions propagate. -/
def create_version_folder (api : GofileAPIModel) (parent_id version_folder_name : String) :
    Except PyExc (Option String) × List ApiCall :=
  match api.get_content parent_id with
  | .error e =>
    (if caught_kvr e then .ok none else .error e, [.getContent parent_id])
  | .ok parent_contents =>
    match parent_contents.children with
    | none => (.ok none, [.getContent parent_id])
    | some children =>
      match children.find? (fun c => c.snd.type == some "folder" && c.snd.name == version_folder_name) with
      | some child => (.ok (some child.fst), [.getContent parent_id])
      | none =>
        match api.create_folder parent_id version_folder_name with
        | .error e =>
          (if caught_kvr e then .ok none else .error e,
           [.getContent parent_id, .createFolder parent_id version_folder_name])
        | .ok version_id =>
          (.ok version_id, [.getContent parent_id, .createFolder parent_id version_folder_name])

/-- `make_folder_public`: set the `public` attribute, `True` on success,
`False` when a `KeyError`/`ValueError`/`RuntimeError` was caught. -/
def make_folder_public (api : GofileAPIModel) (folder_id : String) :
    Except PyExc Bool × List ApiCall :=
  match api.update_content folder_id "public" "true" with
  | .error e =>
    (if caught_kvr e then .ok false else .error e, [.updateContent folder_id "public" "true"])
  | .ok _ => (.ok true, [.updateContent folder_id "public" "true"])

/-- `get_folder_link`: prefer the `link` field, else build
`https://gofile.io/d/<code>`, else `None`. -/
def get_folder_link (api : GofileAPIModel) (folder_id : String) :
    Except PyExc (Option String) × List ApiCall :=
  match api.get_content folder_id with
  | .error e =>
    (if caught_kvr e then .ok none else .error e, [.getContent folder_id])
  | .ok contents =>
    let link := contents.link.getD ""
    let code := contents.code.getD ""
    (if link != "" then .ok (some link)
     else if code != "" then .ok (some ("https://gofile.io/d/" ++ code))
     else .ok none,
     [.getContent folder_id])

/-- Steps 3–7 of `_upload_to_gofile`, once a parent folder id is known:
resolve/create the version folder, upload, publish (tolerating a `False`
result), and fetch the link. -/
def upload_to_gofile_from_parent (api : GofileAPIModel)
    (file_path version_folder_name parent_id : String) :
    Except PyExc (Option String) × List ApiCall :=
  let rv := create_version_folder api parent_id version_folder_name
  match rv.fst with
  | .error e => (.error e, rv.snd)
  | .ok none => (.ok none, rv.snd)
  | .ok (some version_id) =>
    match api.upload_file file_path version_id with
    | .error e => (.error e, rv.snd ++ [.uploadFile file_path version_id])
    | .ok _ =>
      let rp := make_folder_public api version_id
      match rp.fst with
      | .error e => (.error e, rv.snd ++ [.uploadFile file_path version_id] ++ rp.snd)
      | .ok _ =>
        let rl := get_folder_link api version_id
        match rl.fst with
        | .error e =>
          (.error e, rv.snd ++ [.uploadFile file_path version_id] ++ rp.snd ++ rl.snd)
        | .ok link =>
          (.ok link, rv.snd ++ [.uploadFile file_path version_id] ++ rp.snd ++ rl.snd)

/-- The body of `_upload_to_gofile` before its own exception handlers:
look the package up in the in-memory structure, create the parent folder on
a miss, then continue from the parent. -/
def upload_to_gofile_body (api : GofileAPIModel) (folder_structure : List (String × String))
    (root_folder_id file_path package version_folder_name : String) :
    Except PyExc (Option String) × List ApiCall :=
  match lookupKey folder_structure package with
  | some parent_id => upload_to_gofile_from_parent api file_path version_folder_name parent_id
  | none =>
    let rc := create_parent_folder api root_folder_id package
    match rc.fst with
    | .error e => (.error e, rc.snd)
    | .ok none => (.ok none, rc.snd)
    | .ok (some parent_id) =>
      let rr := upload_to_gofile_from_parent api file_path version_folder_name parent_id
      (rr.fst, rc.snd ++ rr.snd)

/-- `_upload_to_gofile`: the body wrapped in the procedure's own
`except (RuntimeError, KeyError)` / `except (OSError, IOError)` handlers,
which turn those exceptions into a `None` link; any other exception leaves
the procedure unhandled. -/
def upload_to_gofile (api : GofileAPIModel) (folder_structure : List (String × String))
    (root_folder_id file_path package version_folder_name : String) :
    Except PyExc (Option String) × List ApiCall :=
  let r := upload_to_gofile_body api folder_structure root_folder_id file_path package version_folder_name
  (match r.fst with
   | .error e => if caught_by_upload_to_gofile e then .ok none else .error e
   | .ok x => .ok x,
   r.snd)

/-! ### Concrete adapter environments used by the counterexamples -/

/-- An adapter whose `get_content` always raises the bare `Exception` that
`GofileAPI._handle_response` produces for a failed fetch of a stale or
deleted folder id. -/
def staleParentApi : GofileAPIModel where
  get_content := fun _ => .error .genericExc
  create_folder := fun _ _ => .ok (some "newFolderId")
  upload_file := fun _ _ => .ok ()
  update_content := fun _ _ _ => .ok ()

/-- Same situation, but the fetch failure arrives as a `RuntimeError`, the
one kind the version-folder handler does convert to `None`. -/
def staleParentApiCaught : GofileAPIModel where
  get_content := fun _ => .error .runtimeError
  create_folder := fun _ _ => .ok (some "newFolderId")
  upload_file := fun _ _ => .ok ()
  update_content := fun _ _ _ => .ok ()

/-- A healthy adapter whose `upload_file` raises
`gofile_api.RateLimitException` (a subclass of `Exception` only). -/
def rateLimitedUploadApi : GofileAPIModel where
  get_content := fun _ =>
    .ok ⟨some [("v1", ⟨some "folder", "com.example.app-1.0", true⟩)], none, none⟩
  create_folder := fun _ _ => .ok (some "newFolderId")
  upload_file := fun _ _ => .error .rateLimitExc
  update_content := fun _ _ _ => .ok ()

/-- The in-memory folder structure used by the counterexamples: the package
already resolves to a (stale) parent folder id. -/
def cexFolderStructure : List (String × String) :=
  [("com.example.app", "staleParent1")]

/-! ## Combined upload summary (`upload_file`, lines 1115–1129)

The summary is computed from the three link variables after the three host
threads have been joined. -/

/-- Severity of the summary log line. -/
inductive SummaryLevel : Type where
  | success : SummaryLevel
  | warning : SummaryLevel
  | error : SummaryLevel
deriving DecidableEq, Repr

/-- The summary message (the `success` case carries the interpolated host
count of the f-string). -/
inductive SummaryMessage : Type where
  | completeToHosts (n : Nat) : SummaryMessage
  | completeToOneHost : SummaryMessage
  | failedOnBothHosts : SummaryMessage
deriving DecidableEq, Repr

/-- `success_count = sum([bool(gofile_link), bool(buzzheavier_link), bool(pixeldrain_link)])`. -/
def link_success_count (gofile_link buzzheavier_link pixeldrain_link : Option String) : Nat :=
  (if gofile_link.isSome then 1 else 0) +
  (if buzzheavier_link.isSome then 1 else 0) +
  (if pixeldrain_link.isSome then 1 else 0)

/-- The end-of-upload summary of `upload_file`. -/
def upload_summary (gofile_link buzzheavier_link pixeldrain_link : Option String) :
    SummaryLevel × SummaryMessage :=
  let success_count := link_success_count gofile_link buzzheavier_link pixeldrain_link
  if success_count ≥ 2 then (.success, .completeToHosts success_count)
  else if success_count = 1 then (.warning, .completeToOneHost)
  else (.error, .failedOnBothHosts)

/-- The per-host link variable as set by the `upload_gofile` /
`upload_buzzheavier` / `upload_pixeldrain` closures: stays `None` when the
host toggle exists and is off, or when the host's API was never
initialized; otherwise it is the per-host procedure's result. -/
def host_attempt_link (enabled : Option Bool) (api_ready : Bool)
    (result : Option String) : Option String :=
  match enabled with
  | some false => none
  | _ => if api_ready then result else none

/-- Specification-side reading of the claim: every enabled host succeeded.
A host counts as enabled when its toggle is `True`. -/
def allEnabledSucceeded (enabledG enabledB enabledP : Bool)
    (gofile_link buzzheavier_link pixeldrain_link : Option String) : Prop :=
  (enabledG → gofile_link.isSome) ∧ (enabledB → buzzheavier_link.isSome) ∧
    (enabledP → pixeldrain_link.isSome)

/-! ## Buzzheavier retry wrapper (`_make_request_with_retry`,
`_handle_rate_limit`) -/

/-- `BACKOFF_BASE_SECONDS` of `buzzheavier_api`. -/
def BACKOFF_BASE_SECONDS : Nat := 5

/-- An HTTP response as `requests` hands it back: a status code and the
(already unwrapped) JSON payload. -/
structure PyResponse (α : Type) where
  status_code : Nat
  body : α
deriving DecidableEq, Repr

/-- `BuzzheavierAPI._handle_rate_limit`: below the retry ceiling, sleep
`(2 ** attempt) * BACKOFF_BASE_SECONDS` seconds and allow a retry (returns
the wait time); at the ceiling, raise the terminal `RateLimitException`
(returns `none`). -/
def handle_rate_limit (attempt max_retries : Nat) : Option Nat :=
  if attempt < max_retries then some (2 ^ attempt * BACKOFF_BASE_SECONDS) else none

/-- Outcome of one `_handle_response` call. -/
inductive HandleOutcome (α : Type) where
  | ok (data : α) : HandleOutcome α
  | rateLimitError : HandleOutcome α
  | httpError (status : Nat) : HandleOutcome α
deriving DecidableEq, Repr

/-- `BuzzheavierAPI._handle_response`: `raise_for_status` turns a 4xx/5xx
status into an exception, specialised to `RateLimitException` for 429;
otherwise the payload is returned. -/
def bh_handle_response {α : Type} (r : PyResponse α) : HandleOutcome α :=
  if 400 ≤ r.status_code then
    if r.status_code == 429 then .rateLimitError else .httpError r.status_code
  else .ok r.body

/-- Result of the whole retry wrapper, together with the list of backoff
sleeps that were performed. -/
inductive RequestResult (α : Type) where
  | ok (data : α) (waits : List Nat) : RequestResult α
  | rateLimited (waits : List Nat) : RequestResult α
  | httpError (status : Nat) (waits : List Nat) : RequestResult α
deriving DecidableEq, Repr

/-- The `for attempt in range(max_retries + 1)` loop of
`_make_request_with_retry`.  `remaining` is the number of loop iterations
left, `attempt` the current loop index; `responses n` is the response to
the n-th request issued.  Running off the end of the loop is the trailing
`raise RateLimitException("Max retries exceeded")`. -/
def bh_retry_loop {α : Type} (responses : Nat → PyResponse α) (max_retries : Nat) :
    Nat → Nat → List Nat → RequestResult α
  | 0, _, waits => .rateLimited waits
  | remaining + 1, attempt, waits =>
    let r := responses attempt
    if r.status_code == 429 then
      match handle_rate_limit attempt max_retries with
      | some w => bh_retry_loop responses max_retries remaining (attempt + 1) (waits ++ [w])
      | none => .rateLimited waits
    else
      match bh_handle_response r with
      | .ok d => .ok d waits
      | .rateLimitError => .rateLimited waits
      | .httpError s => .httpError s waits

/-- `BuzzheavierAPI._make_request_with_retry` with its default retry
ceiling of 3. -/
def make_request_with_retry {α : Type} (responses : Nat → PyResponse α)
    (max_retries : Nat := 3) : RequestResult α :=
  bh_retry_loop responses max_retries (max_retries + 1) 0 []

/-! ## Upload stall detection (`ProgressTrackingFile`)

`buzzheavier_api.py` and `pixeldrain_api.py` define this wrapper with
identical `read` logic; it is embedded once.  Times are in seconds. -/

/-- Failure modes of a streaming transfer; the wrapper's `TimeoutError` is
a distinct condition from the `requests` timeout and connection errors. -/
inductive TransferError : Type where
  | stallTimeout (window : Int) : TransferError
  | requestTimeout : TransferError
  | connectionError : TransferError
deriving DecidableEq, Repr

/-- The wrapper's state: the configured stall window and the time of the
last successful data transfer (initialized to the construction time). -/
structure ProgressTrackingFile where
  timeout_seconds : Int
  last_read_time : Int
deriving DecidableEq, Repr

/-- The `upload_stall_timeout` default of `BuzzheavierAPI.__init__` and
`PixeldrainAPI.__init__`, which both upload paths pass to the wrapper. -/
def upload_stall_timeout_default : Int := 120

/-- `ProgressTrackingFile.read`: raise the stall timeout when more than
`timeout_seconds` have passed since the last transferred chunk, otherwise
read; the progress timestamp advances only when data actually arrived.
`current_time` is `time.time()` at entry, `data_len` the length of the
chunk the wrapped file returned, `time_after_read` the clock after the
read. -/
def ProgressTrackingFile.read (f : ProgressTrackingFile) (current_time : Int)
    (data_len : Nat) (time_after_read : Int) :
    Except TransferError (Nat × ProgressTrackingFile) :=
  if f.timeout_seconds < current_time - f.last_read_time then
    .error (.stallTimeout f.timeout_seconds)
  else
    .ok (data_len, if 0 < data_len then { f with last_read_time := time_after_read } else f)

/-- One observed call to `read` during a streaming upload. -/
structure ReadEvent where
  current_time : Int
  data_len : Nat
  time_after_read : Int
deriving DecidableEq, Repr

/-- Run a whole sequence of reads, stopping at the first error. -/
def runReads : ProgressTrackingFile → List ReadEvent → Except TransferError ProgressTrackingFile
  | f, [] => .ok f
  | f, e :: es =>
    match f.read e.current_time e.data_len e.time_after_read with
    | .error err => .error err
    | .ok r => runReads r.snd es

/-- Every read of the sequence happens within the stall window of the
previous data transfer (the state evolving as in `read`). -/
def progressing : ProgressTrackingFile → List ReadEvent → Bool
  | _, [] => true
  | f, e :: es =>
    decide (e.current_time - f.last_read_time ≤ f.timeout_seconds) &&
      progressing
        (if 0 < e.data_len then { f with last_read_time := e.time_after_read } else f) es

/-! ## Gofile response handling (`GofileAPI._handle_response` and its
direct call sites) -/

/-- The JSON body of a Gofile response: the `status` field and the `data`
payload. -/
structure GfBody (α : Type) where
  status_ok : Bool
  data : α
deriving DecidableEq, Repr

/-- Outcome of one `GofileAPI._handle_response` call.  `rateLimitRaised`
records the single backoff sleep performed before the
`RateLimitException` is raised back to the caller. -/
inductive GfHandleResult (α : Type) where
  | ok (data : α) : GfHandleResult α
  | rateLimitRaised (slept : Nat) : GfHandleResult α
  | rateLimitTerminal : GfHandleResult α
  | httpError (status : Nat) : GfHandleResult α
  | apiError : GfHandleResult α
deriving DecidableEq, Repr

/-- `GofileAPI._handle_response`: on a 429 below the retry budget it sleeps
`(2 ** retry_count) * 5` seconds and then raises `RateLimitException`
without retrying anything itself; on other HTTP errors and on
`status != 'ok'` bodies it raises plain exceptions. -/
def gf_handle_response {α : Type} (r : PyResponse (GfBody α))
    (retry_count : Nat := 0) (max_retries : Nat := 3) : GfHandleResult α :=
  if 400 ≤ r.status_code then
    if r.status_code == 429 then
      if retry_count < max_retries then .rateLimitRaised (2 ^ retry_count * 5)
      else .rateLimitTerminal
    else .httpError r.status_code
  else if r.body.status_ok then .ok r.body.data
  else .apiError

/-- Result of one orchestrator-facing Gofile operation, with the number of
HTTP requests it issued. -/
structure DirectCallResult (α : Type) where
  outcome : GfHandleResult α
  requests_issued : Nat
deriving DecidableEq, Repr

/-- The call shape shared by `GofileAPI.upload_file`, `create_folder`,
`get_content` and `update_content`: one `session` request followed by
`_handle_response(response)` with the default `retry_count = 0`;
`responses n` is the response the server would give to the n-th request
issued by this call. -/
def gofile_direct_call {α : Type} (responses : Nat → PyResponse (GfBody α)) :
    DirectCallResult α :=
  { outcome := gf_handle_response (responses 0), requests_issued := 1 }

/-! ## Lemmas about the association-list dictionary model -/

theorem find?_map_set_self {α : Type} (k : String) (v : α) :
    ∀ l : List (String × α), l.any (fun kv => kv.fst == k) = true →
      (l.map (fun kv => if kv.fst == k then (k, v) else kv)).find?
          (fun kv => kv.fst == k) = some (k, v) := by
  intro l
  induction l with
  | nil => intro h; simp at h
  | cons hd tl ih =>
    intro h
    by_cases hh : hd.fst = k
    · have hmap : (if (hd.fst == k) = true then (k, v) else hd) = (k, v) := by
        simp [hh]
      rw [List.map_cons, hmap, List.find?_cons_of_pos _ (by simp)]
    · have hmap : (if (hd.fst == k) = true then (k, v) else hd) = hd := by
        simp [hh]
      have htl : tl.any (fun kv => kv.fst == k) = true := by
        simpa [List.any_cons, hh] using h
      rw [List.map_cons, hmap, List.find?_cons_of_neg _ (by simp [hh])]
      exact ih htl

theorem find?_append_single_self {α : Type} (k : String) (v : α) :
    ∀ l : List (String × α), l.any (fun kv => kv.fst == k) = false →
      (l ++ [(k, v)]).find? (fun kv => kv.fst == k) = some (k, v) := by
  intro l
  induction l with
  | nil => intro h; rw [List.nil_append, List.find?_cons_of_pos _ (by simp)]
  | cons hd tl ih =>
    intro h
    rw [List.any_cons, Bool.or_eq_false_iff] at h
    obtain ⟨hb, htl⟩ := h
    rw [List.cons_append, List.find?_cons_of_neg _ (by simp [hb])]
    exact ih htl

theorem find?_map_set_ne {α : Type} (k k2 : String) (v : α) (hne : k2 ≠ k) :
    ∀ l : List (String × α),
      (l.map (fun kv => if kv.fst == k then (k, v) else kv)).find?
          (fun kv => kv.fst == k2) = l.find? (fun kv => kv.fst == k2) := by
  intro l
  induction l with
  | nil => simp
  | cons hd tl ih =>
    by_cases hh : hd.fst = k
    · have hmap : (if (hd.fst == k) = true then (k, v) else hd) = (k, v) := by
        simp [hh]
      rw [List.map_cons, hmap, List.find?_cons_of_neg _ (by simp [Ne.symm hne]),
        List.find?_cons_of_neg _ (by simp [hh, Ne.symm hne])]
      exact ih
    · have hmap : (if (hd.fst == k) = true then (k, v) else hd) = hd := by
        simp [hh]
      rw [List.map_cons, hmap]
      by_cases hh2 : hd.fst = k2
      · rw [List.find?_cons_of_pos _ (by simp [hh2]), List.find?_cons_of_pos _ (by simp [hh2])]
      · rw [List.find?_cons_of_neg _ (by simp [hh2]), List.find?_cons_of_neg _ (by simp [hh2])]
        exact ih

theorem find?_append_single_ne {α : Type} (k k2 : String) (v : α) (hne : k2 ≠ k) :
    ∀ l : List (String × α),
      (l ++ [(k, v)]).find? (fun kv => kv.fst == k2) = l.find? (fun kv => kv.fst == k2) := by
  intro l
  induction l with
  | nil =>
    rw [List.nil_append, List.find?_cons_of_neg _ (by simp [Ne.symm hne])]
  | cons hd tl ih =>
    rw [List.cons_append]
    by_cases hh2 : hd.fst = k2
    · rw [List.find?_cons_of_pos _ (by simp [hh2]), List.find?_cons_of_pos _ (by simp [hh2])]
    · rw [List.find?_cons_of_neg _ (by simp [hh2]), List.find?_cons_of_neg _ (by simp [hh2])]
      exact ih

theorem lookupKey_setKey_self {α : Type} (l : List (String × α)) (k : String) (v : α) :
    lookupKey (setKey l k v) k = some v := by
  unfold setKey lookupKey
  by_cases h : l.any (fun kv => kv.fst == k) = true
  · rw [if_pos h, find?_map_set_self k v l h]
    rfl
  · have hf : l.any (fun kv => kv.fst == k) = false := Bool.eq_false_iff.mpr h
    rw [if_neg h, find?_append_single_self k v l hf]
    rfl

theorem lookupKey_setKey_ne {α : Type} (l : List (String × α)) (k k2 : String) (v : α)
    (hne : k2 ≠ k) : lookupKey (setKey l k v) k2 = lookupKey l k2 := by
  unfold setKey lookupKey
  by_cases h : l.any (fun kv => kv.fst == k) = true
  · rw [if_pos h, find?_map_set_ne k k2 v hne l]
  · rw [if_neg h, find?_append_single_ne k k2 v hne l]

/-! ## C5: legacy cache migration -/

/-- C5: loading a legacy cache document (top-level `timestamp` field, no
per-host wrapper) wraps the whole old document under the first host's key
`gofile`, and the migration is idempotent, so loading the migrated document
again returns it unchanged. -/
theorem C5_legacy_migration_idempotent (d : JDoc) :
    (hasKey d "timestamp" = true → hasKey d "gofile" = false →
      load_folder_cache (some d) = some [("gofile", JVal.obj d)])
    ∧ migrate_cache (migrate_cache d) = migrate_cache d
    ∧ load_folder_cache (load_folder_cache (some d)) = load_folder_cache (some d) := by
  have hidem : migrate_cache (migrate_cache d) = migrate_cache d := by
    unfold migrate_cache
    by_cases h : (hasKey d "timestamp" && !hasKey d "gofile") = true
    · have hmig : hasKey [("gofile", JVal.obj d)] "timestamp" = false := by
        simp [hasKey]
      simp [h, hmig]
    · have hf : (hasKey d "timestamp" && !hasKey d "gofile") = false := by simpa using h
      simp [hf]
  refine ⟨?_, hidem, ?_⟩
  · intro h1 h2
    simp [load_folder_cache, migrate_cache, h1, h2]
  · simp [load_folder_cache, hidem]

/-- Witness for C5 at a concrete legacy document. -/
theorem C5_legacy_migration_witness :
    load_folder_cache (some [("timestamp", JVal.str "2025-01-01T00:00:00"),
        ("root_folder_id", JVal.str "r1"), ("folders", JVal.obj [])]) =
      some [("gofile", JVal.obj [("timestamp", JVal.str "2025-01-01T00:00:00"),
        ("root_folder_id", JVal.str "r1"), ("folders", JVal.obj [])])] :=
  (C5_legacy_migration_idempotent _).1 (by rfl) (by rfl)

/-! ## C6: host-scoped save leaves other hosts' entries unchanged -/

/-- C6: `save_folder_cache` is a read-modify-write that sets the named
host's entry to `{timestamp: now, root_folder_id, folders}` and leaves the
entry of every other host in the persisted document unchanged. -/
theorem C6_save_host_entry_frame (existing : JDoc) (host now_iso root_folder_id : String)
    (folders : JVal) (other : String) :
    lookupKey (save_folder_cache (some existing) host now_iso root_folder_id folders) host =
      some (JVal.obj [("timestamp", JVal.str now_iso),
        ("root_folder_id", JVal.str root_folder_id), ("folders", folders)])
    ∧ (other ≠ host →
        lookupKey (save_folder_cache (some existing) host now_iso root_folder_id folders) other =
          lookupKey existing other) := by
  constructor
  · exact lookupKey_setKey_self existing host _
  · intro hne
    exact lookupKey_setKey_ne existing host other _ hne

/-- Witness for C6: saving the `gofile` entry preserves the `buzzheavier`
entry of the existing document. -/
theorem C6_save_host_entry_witness :
    lookupKey (save_folder_cache (some [("buzzheavier", JVal.str "bh-entry")])
        "gofile" "2025-01-01T00:00:00" "root1" (JVal.obj [])) "buzzheavier" =
      some (JVal.str "bh-entry") :=
  ((C6_save_host_entry_frame [("buzzheavier", JVal.str "bh-entry")]
      "gofile" "2025-01-01T00:00:00" "root1" (JVal.obj []) "buzzheavier").2
    (by decide)).trans (by rfl)

/-! ## C2: the combined upload summary -/

/-- C2 counterexample: with all three hosts enabled, two succeeding and one
failing, the summary takes the top branch (the `success`-level
`Upload complete to N hosts!` line) even though an enabled host failed, so
the top branch is not `full success = all enabled hosts succeeded`. -/
theorem C2_summary_counterexample :
    (upload_summary (host_attempt_link (some true) true (some "https://gofile.io/d/x"))
        (host_attempt_link (some true) true (some "https://buzzheavier.com/y"))
        (host_attempt_link (some true) true none)).fst = SummaryLevel.success
    ∧ ¬ allEnabledSucceeded true true true
        (host_attempt_link (some true) true (some "https://gofile.io/d/x"))
        (host_attempt_link (some true) true (some "https://buzzheavier.com/y"))
        (host_attempt_link (some true) true none) := by
  constructor
  · rfl
  · intro h
    exact absurd (h.2.2 rfl) (by decide)

/-- C2 amended: the summary level is a function of the total number of
per-host links alone — `success` iff at least two hosts produced a link,
`warning` iff exactly one did, `error` iff none did — independent of which
hosts are enabled; a disabled host always contributes a missing link. -/
theorem C2_summary_by_count (gofile_link buzzheavier_link pixeldrain_link : Option String) :
    ((upload_summary gofile_link buzzheavier_link pixeldrain_link).fst = SummaryLevel.success ↔
      2 ≤ link_success_count gofile_link buzzheavier_link pixeldrain_link)
    ∧ ((upload_summary gofile_link buzzheavier_link pixeldrain_link).fst = SummaryLevel.warning ↔
      link_success_count gofile_link buzzheavier_link pixeldrain_link = 1)
    ∧ ((upload_summary gofile_link buzzheavier_link pixeldrain_link).fst = SummaryLevel.error ↔
      link_success_count gofile_link buzzheavier_link pixeldrain_link = 0)
    ∧ (∀ (ready : Bool) (result : Option String),
        host_attempt_link (some false) ready result = none) := by
  refine ⟨?_, ?_, ?_, fun ready result => rfl⟩ <;>
    (rcases gofile_link with _ | g <;> rcases buzzheavier_link with _ | b <;>
      rcases pixeldrain_link with _ | p <;>
      simp [upload_summary, link_success_count])

/-! ## C10: Gofile adapter operations never retry on rate limit -/

/-- C10: the call shape of `GofileAPI.upload_file` / `create_folder` /
`get_content` / `update_content` issues its HTTP request exactly once; when
that one response is a 429, the handler sleeps one backoff interval
(`2 ** 0 * 5 = 5` seconds) and raises the rate-limit exception, and the
call's outcome never depends on any response after the first, so no
automatic retry happens for any number of rate-limit responses. -/
theorem C10_gofile_single_request (α : Type) (responses : Nat → PyResponse (GfBody α)) :
    (gofile_direct_call responses).requests_issued = 1
    ∧ ((responses 0).status_code = 429 →
        (gofile_direct_call responses).outcome = .rateLimitRaised 5)
    ∧ (∀ responses2 : Nat → PyResponse (GfBody α), responses2 0 = responses 0 →
        gofile_direct_call responses2 = gofile_direct_call responses) := by
  refine ⟨rfl, ?_, ?_⟩
  · intro h429
    simp [gofile_direct_call, gf_handle_response, h429]
  · intro responses2 h0
    simp [gofile_direct_call, h0]

/-- Witness for C10 at a concrete all-429 response sequence. -/
theorem C10_gofile_single_request_witness :
    (gofile_direct_call (fun _ => (⟨429, ⟨true, (0 : Nat)⟩⟩ : PyResponse (GfBody Nat)))).outcome =
      .rateLimitRaised 5
    ∧ gofile_direct_call (fun _ => (⟨429, ⟨true, (0 : Nat)⟩⟩ : PyResponse (GfBody Nat))) =
      gofile_direct_call (fun _ => (⟨429, ⟨true, (0 : Nat)⟩⟩ : PyResponse (GfBody Nat))) :=
  ⟨(C10_gofile_single_request Nat _).2.1 rfl, (C10_gofile_single_request Nat _).2.2 _ rfl⟩

/-! ## C9: upload stall detection -/

/-- C9: a `ProgressTrackingFile.read` fails exactly when the wall-clock
time since the last transferred chunk exceeds the stall window, the failure
is always the dedicated stall-timeout condition (never an ordinary network
timeout), with the default upload configuration the window is 120 seconds,
and any sequence of reads each within the window of the previous transfer
succeeds, however long it is. -/
theorem C9_stall_detection :
    (∀ (f : ProgressTrackingFile) (t : Int) (d : Nat) (t2 : Int),
      ((∃ e, f.read t d t2 = .error e) ↔ f.timeout_seconds < t - f.last_read_time)
      ∧ (∀ e, f.read t d t2 = .error e → e = .stallTimeout f.timeout_seconds))
    ∧ (∀ (last t : Int) (d : Nat) (t2 : Int),
        ((∃ e, (ProgressTrackingFile.mk upload_stall_timeout_default last).read t d t2 = .error e) ↔
          120 < t - last))
    ∧ (∀ (f : ProgressTrackingFile) (evs : List ReadEvent),
        progressing f evs = true → ∃ g, runReads f evs = .ok g) := by
  have hread : ∀ (f : ProgressTrackingFile) (t : Int) (d : Nat) (t2 : Int),
      ((∃ e, f.read t d t2 = .error e) ↔ f.timeout_seconds < t - f.last_read_time)
      ∧ (∀ e, f.read t d t2 = .error e → e = .stallTimeout f.timeout_seconds) := by
    intro f t d t2
    unfold ProgressTrackingFile.read
    by_cases h : f.timeout_seconds < t - f.last_read_time
    · simp [h]
    · simp [h]
  refine ⟨hread, ?_, ?_⟩
  · intro last t d t2
    simpa [upload_stall_timeout_default] using
      (hread (ProgressTrackingFile.mk upload_stall_timeout_default last) t d t2).1
  · intro f evs
    induction evs generalizing f with
    | nil => intro _; exact ⟨f, rfl⟩
    | cons e es ih =>
      intro h
      rw [progressing, Bool.and_eq_true] at h
      obtain ⟨h1, h2⟩ := h
      have hle : e.current_time - f.last_read_time ≤ f.timeout_seconds := of_decide_eq_true h1
      have hnot : ¬ f.timeout_seconds < e.current_time - f.last_read_time := not_lt.mpr hle
      obtain ⟨g, hg⟩ := ih _ h2
      refine ⟨g, ?_⟩
      rw [runReads]
      unfold ProgressTrackingFile.read
      rw [if_neg hnot]
      by_cases hd : 0 < e.data_len
      · simpa [hd] using hg
      · simpa [hd] using hg

/-- Witness for C9: a concrete read sequence with a chunk at the exact
window boundary succeeds. -/
theorem C9_stall_detection_witness :
    ∃ g, runReads (ProgressTrackingFile.mk 120 0)
      [⟨100, 5, 101⟩, ⟨201, 0, 202⟩, ⟨221, 3, 222⟩] = .ok g :=
  C9_stall_detection.2.2 (ProgressTrackingFile.mk 120 0)
    [⟨100, 5, 101⟩, ⟨201, 0, 202⟩, ⟨221, 3, 222⟩] (by decide)

/-! ## C7: Buzzheavier rate-limit retry with exponential backoff -/

/-- C7: through `_make_request_with_retry` with the default ceiling of 3,
three consecutive 429 responses followed by a success produce exactly the
three backoff sleeps 5, 10, 20 seconds (doubling per attempt) and then the
successful payload; four consecutive 429 responses exhaust the ceiling and
raise the terminal rate-limit failure after the same three sleeps. -/
theorem C7_rate_limit_backoff (α : Type) (responses : Nat → PyResponse α) (d : α) :
    ((∀ i, i < 3 → (responses i).status_code = 429) →
      responses 3 = ⟨200, d⟩ →
      make_request_with_retry responses = .ok d [5, 10, 20])
    ∧ ((∀ i, i ≤ 3 → (responses i).status_code = 429) →
      make_request_with_retry responses = .rateLimited [5, 10, 20]) := by
  constructor
  · intro h429 hok
    have h0 := h429 0 (by omega)
    have h1 := h429 1 (by omega)
    have h2 := h429 2 (by omega)
    unfold make_request_with_retry
    rw [show (3 : Nat) + 1 = 4 from rfl]
    rw [bh_retry_loop, h0]
    norm_num [handle_rate_limit, BACKOFF_BASE_SECONDS]
    rw [bh_retry_loop, h1]
    norm_num [handle_rate_limit, BACKOFF_BASE_SECONDS]
    rw [bh_retry_loop, h2]
    norm_num [handle_rate_limit, BACKOFF_BASE_SECONDS]
    rw [bh_retry_loop, hok]
    norm_num [bh_handle_response]
  · intro h429
    have h0 := h429 0 (by omega)
    have h1 := h429 1 (by omega)
    have h2 := h429 2 (by omega)
    have h3 := h429 3 (by omega)
    unfold make_request_with_retry
    rw [show (3 : Nat) + 1 = 4 from rfl]
    rw [bh_retry_loop, h0]
    norm_num [handle_rate_limit, BACKOFF_BASE_SECONDS]
    rw [bh_retry_loop, h1]
    norm_num [handle_rate_limit, BACKOFF_BASE_SECONDS]
    rw [bh_retry_loop, h2]
    norm_num [handle_rate_limit, BACKOFF_BASE_SECONDS]
    rw [bh_retry_loop, h3]
    norm_num [handle_rate_limit]

/-- Witness for C7 at concrete response sequences. -/
theorem C7_rate_limit_backoff_witness :
    make_request_with_retry
        (fun i => if i < 3 then (⟨429, (0 : Nat)⟩ : PyResponse Nat) else ⟨200, 42⟩) =
      .ok 42 [5, 10, 20]
    ∧ make_request_with_retry (fun _ => (⟨429, (0 : Nat)⟩ : PyResponse Nat)) =
      .rateLimited [5, 10, 20] :=
  ⟨(C7_rate_limit_backoff Nat _ 42).1 (by decide) (by norm_num),
   (C7_rate_limit_backoff Nat _ 0).2 (fun i _ => rfl)⟩

/-! ## C4: cache validity for folder-structure resolution -/

/-- C4: a cached host entry is used if and only if it exists, its age is at
most 24 hours and its stored root folder id equals the current session's
root folder id; an entry aged 25 hours is invalid regardless of the root
matching, and then the structure comes entirely from the live scan. -/
theorem C4_cache_validity (cache_data : Option (List (String × HostCacheEntry)))
    (host : String) (now : Int) (root_folder_id : String) (scan : ScanChildren)
    (init : List (String × String)) :
    ((build_folder_structure_for_host cache_data host now root_folder_id scan init).used_cache = true ↔
      ∃ doc entry, cache_data = some doc ∧ lookupKey doc host = some entry ∧
        now - entry.timestamp ≤ 24 * 3600 ∧ entry.root_folder_id = root_folder_id)
    ∧ (∀ doc entry, cache_data = some doc → lookupKey doc host = some entry →
        now - entry.timestamp = 25 * 3600 →
        (build_folder_structure_for_host cache_data host now root_folder_id scan init).used_cache = false
        ∧ (build_folder_structure_for_host cache_data host now root_folder_id scan init).folder_structure =
            (scanParents scan init).fst) := by
  have hvalid : ∀ e : HostCacheEntry, cacheValid e now root_folder_id = true ↔
      now - e.timestamp ≤ 24 * 3600 ∧ e.root_folder_id = root_folder_id := by
    intro e
    unfold cacheValid CACHE_EXPIRY_HOURS
    rw [Bool.and_eq_true, decide_eq_true_iff, beq_iff_eq]
  constructor
  · constructor
    · intro h
      rcases cache_data with _ | doc
      · simp [build_folder_structure_for_host] at h
      rcases hl : lookupKey doc host with _ | entry
      · simp [build_folder_structure_for_host, hl] at h
      by_cases hv : cacheValid entry now root_folder_id = true
      · exact ⟨doc, entry, rfl, hl, (hvalid entry).mp hv⟩
      · have hvf : cacheValid entry now root_folder_id = false := Bool.eq_false_iff.mpr hv
        simp [build_folder_structure_for_host, hl, hvf] at h
    · rintro ⟨doc, entry, rfl, hl, hcond⟩
      have hv : cacheValid entry now root_folder_id = true := (hvalid entry).mpr hcond
      simp [build_folder_structure_for_host, hl, hv]
  · rintro doc entry rfl hl hage
    have hvf : cacheValid entry now root_folder_id = false := by
      apply Bool.eq_false_iff.mpr
      intro hv
      have := ((hvalid entry).mp hv).1
      omega
    constructor <;> simp [build_folder_structure_for_host, hl, hvf]

/-- Witness for C4: a concrete entry 25 hours old with a matching root is
rejected and the structure comes from the scan. -/
theorem C4_cache_validity_witness :
    (build_folder_structure_for_host
        (some [("gofile", ⟨0, "root1", []⟩)]) "gofile" (25 * 3600) "root1"
        (ScanChildren.listFormat []) []).used_cache = false
    ∧ (build_folder_structure_for_host
        (some [("gofile", ⟨0, "root1", []⟩)]) "gofile" (25 * 3600) "root1"
        (ScanChildren.listFormat []) []).folder_structure =
      (scanParents (ScanChildren.listFormat []) []).fst :=
  (C4_cache_validity (some [("gofile", ⟨0, "root1", []⟩)]) "gofile" (25 * 3600) "root1"
      (ScanChildren.listFormat []) []).2
    [("gofile", ⟨0, "root1", []⟩)] ⟨0, "root1", []⟩ rfl (by rfl) (by norm_num)

/-! ## C1: no self-healing retry after a parent-fetch failure -/

/-- C1 counterexample: with a cached parent id whose contents fetch fails
(the bare `Exception` the Gofile adapter actually raises for a stale or
deleted id), the complete adapter-call trace of the per-host upload is the
single failed `get_content` — the parent folder is never recreated and
version-folder resolution is never retried; the procedure ends with the
exception escaping, not with a handled recovery. -/
theorem C1_no_self_heal_counterexample :
    upload_to_gofile staleParentApi cexFolderStructure "root1" "app.apk"
        "com.example.app" "com.example.app-1.0" =
      (.error .genericExc, [.getContent "staleParent1"])
    ∧ ((upload_to_gofile staleParentApi cexFolderStructure "root1" "app.apk"
        "com.example.app" "com.example.app-1.0").snd.filter isCreateFolderCall = []
    ∧ ((upload_to_gofile staleParentApi cexFolderStructure "root1" "app.apk"
        "com.example.app" "com.example.app-1.0").snd.filter isGetContentCall).length = 1) := by
  exact ⟨rfl, rfl, rfl⟩

/-- C1 amended: when the fetch of the resolved parent folder fails during
version-folder resolution, the per-host Gofile upload makes no further
adapter call at all — no parent recreation, no retry of the resolution —
and when the failure is one of the caught exception classes the host's
result is the same `None` as an ordinary not-found. -/
theorem C1_no_self_heal (api : GofileAPIModel) (fs : List (String × String))
    (root_folder_id file_path package version_folder_name parent_id : String) (e : PyExc) :
    lookupKey fs package = some parent_id →
    api.get_content parent_id = .error e →
    (upload_to_gofile api fs root_folder_id file_path package version_folder_name).snd =
      [.getContent parent_id]
    ∧ (caught_kvr e = true →
        (upload_to_gofile api fs root_folder_id file_path package version_folder_name).fst =
          .ok none) := by
  intro hfs hget
  simp only [upload_to_gofile, upload_to_gofile_body, upload_to_gofile_from_parent,
    create_version_folder, hfs, hget]
  by_cases hc : caught_kvr e = true
  · simp [hc]
  · have hcf : caught_kvr e = false := Bool.eq_false_iff.mpr hc
    rcases ho : caught_by_upload_to_gofile e <;> simp [hcf, ho]

/-- Witness for C1 at the caught-exception environment. -/
theorem C1_no_self_heal_witness :
    (upload_to_gofile staleParentApiCaught cexFolderStructure "root1" "app.apk"
        "com.example.app" "com.example.app-1.0").snd = [.getContent "staleParent1"]
    ∧ (caught_kvr .runtimeError = true →
        (upload_to_gofile staleParentApiCaught cexFolderStructure "root1" "app.apk"
          "com.example.app" "com.example.app-1.0").fst = .ok none) :=
  C1_no_self_heal staleParentApiCaught cexFolderStructure "root1" "app.apk"
    "com.example.app" "com.example.app-1.0" "staleParent1" .runtimeError (by rfl) (by rfl)

/-! ## C8: a per-host adapter failure can escape the per-host procedure -/

/-- C8: the gofile per-host procedure promises a `None` result on failure,
but its handlers cover only `RuntimeError`/`KeyError`/`OSError`/`IOError`;
the adapter's `RateLimitException` (and its bare `Exception` errors) are
none of these, so an upload-step rate limit escapes `_upload_to_gofile` as
an uncaught exception instead of becoming a null per-host result. -/
theorem C8_adapter_exception_escapes :
    upload_to_gofile rateLimitedUploadApi cexFolderStructure "root1" "app.apk"
        "com.example.app" "com.example.app-1.0" =
      (.error .rateLimitExc, [.getContent "staleParent1", .uploadFile "app.apk" "v1"])
    ∧ caught_by_upload_to_gofile .rateLimitExc = false
    ∧ caught_kvr .rateLimitExc = false := by
  refine ⟨?_, rfl, rfl⟩
  rfl

/-! ## C3: the filename parser agrees with the specification's
first-valid-hyphen characterization

The proofs below relate the greedy regex matcher to the takeWhile/dropWhile
decomposition of its input and then compare the two split searches. -/

theorem digit_isVchar (c : Char) (h : c.isDigit = true) : isVchar c = true := by
  simp [isVchar, Char.isAlphanum, h]

theorem isVchar_ne_hyphen (c : Char) (h : isVchar c = true) : (c != '-') = true := by
  rcases eq_or_ne c '-' with he | he
  · subst he
    exact absurd h (by decide)
  · simp [he]

theorem all_mono (P Q : Char → Bool) (himp : ∀ c, P c = true → Q c = true) :
    ∀ l : List Char, l.all P = true → l.all Q = true := by
  intro l h
  rw [List.all_eq_true] at *
  exact fun x hx => himp x (h x hx)

theorem all_takeWhile (P : Char → Bool) (l : List Char) : (l.takeWhile P).all P = true := by
  induction l with
  | nil => rfl
  | cons c t ih =>
    by_cases h : P c = true
    · rw [List.takeWhile_cons_of_pos h]
      simp [List.all_cons, h, ih]
    · rw [List.takeWhile_cons_of_neg (by simp [h])]
      rfl

theorem dropWhile_head_false (P : Char → Bool) :
    ∀ (l : List Char) (c : Char) (t : List Char), l.dropWhile P = c :: t → P c = false := by
  intro l
  induction l with
  | nil => intro c t h; simp [List.dropWhile] at h
  | cons a l2 ih =>
    intro c t h
    by_cases ha : P a = true
    · rw [List.dropWhile_cons_of_pos ha] at h
      exact ih c t h
    · rw [List.dropWhile_cons_of_neg (by simp [ha])] at h
      cases h
      exact Bool.eq_false_iff.mpr ha

theorem takeWhile_append_of_all (P : Char → Bool) :
    ∀ (p q : List Char), p.all P = true → (p ++ q).takeWhile P = p ++ q.takeWhile P := by
  intro p
  induction p with
  | nil => intro q _; rfl
  | cons a t ih =>
    intro q h
    rw [List.all_cons, Bool.and_eq_true] at h
    rw [List.cons_append, List.takeWhile_cons_of_pos h.1, ih q h.2, List.cons_append]

theorem dropWhile_append_of_all (P : Char → Bool) :
    ∀ (p q : List Char), p.all P = true → (p ++ q).dropWhile P = q.dropWhile P := by
  intro p
  induction p with
  | nil => intro q _; rfl
  | cons a t ih =>
    intro q h
    rw [List.all_cons, Bool.and_eq_true] at h
    rw [List.cons_append, List.dropWhile_cons_of_pos h.1, ih q h.2]

theorem takeWhile_eq_self_of_all (P : Char → Bool) (l : List Char) (h : l.all P = true) :
    l.takeWhile P = l := by
  have := takeWhile_append_of_all P l [] h
  simpa using this

theorem takeWhile_dropWhile_decomp (P : Char → Bool) (p q : List Char)
    (hp : p.all P = true) (hq : ∀ c t, q = c :: t → P c = false) :
    (p ++ q).takeWhile P = p ∧ (p ++ q).dropWhile P = q := by
  have hqt : q.takeWhile P = [] := by
    rcases q with _ | ⟨c, t⟩
    · rfl
    · rw [List.takeWhile_cons_of_neg (by simp [hq c t rfl])]
  have hqd : q.dropWhile P = q := by
    rcases q with _ | ⟨c, t⟩
    · rfl
    · rw [List.dropWhile_cons_of_neg (by simp [hq c t rfl])]
  rw [takeWhile_append_of_all P p q hp, dropWhile_append_of_all P p q hp, hqt, hqd,
    List.append_nil]
  exact ⟨rfl, rfl⟩

theorem dotGroups_decomp : ∀ (fuel : Nat) (cs : List Char),
    (dotGroups fuel cs).fst ++ (dotGroups fuel cs).snd = cs
    ∧ ((dotGroups fuel cs).fst).all isVchar = true := by
  intro fuel
  induction fuel with
  | zero => intro cs; exact ⟨rfl, rfl⟩
  | succ fuel ih =>
    intro cs
    rcases cs with _ | ⟨c, rest⟩
    · exact ⟨rfl, rfl⟩
    · simp only [dotGroups]
      by_cases hc : c = '.'
      · rw [if_pos (by simp [hc])]
        by_cases hds : (rest.takeWhile Char.isDigit).isEmpty = true
        · rw [if_pos hds]
          exact ⟨rfl, rfl⟩
        · rw [if_neg hds]
          obtain ⟨ih1, ih2⟩ := ih (rest.dropWhile Char.isDigit)
          constructor
          · simp only [List.cons_append, List.append_assoc, ih1]
            rw [List.takeWhile_append_dropWhile]
          · subst hc
            have hdsv : (rest.takeWhile Char.isDigit).all isVchar = true :=
              all_mono Char.isDigit isVchar digit_isVchar _ (all_takeWhile Char.isDigit rest)
            simp [List.all_cons, List.all_append, hdsv, ih2, isVchar]
      · rw [if_neg (by simp [hc])]
        exact ⟨rfl, rfl⟩

theorem versionMatch_eq (a : Char) (as : List Char) (h : a.isDigit = true) :
    versionMatch (a :: as) =
      some ((a :: as).takeWhile isVchar, (a :: as).dropWhile isVchar) := by
  simp only [versionMatch]
  have hne : ((a :: as).takeWhile Char.isDigit).isEmpty = false := by
    rw [List.takeWhile_cons_of_pos h]
    rfl
  rw [if_neg (by simp [hne])]
  obtain ⟨hg1, hg2⟩ := dotGroups_decomp (((a :: as).dropWhile Char.isDigit).length)
    ((a :: as).dropWhile Char.isDigit)
  generalize hgr : dotGroups (((a :: as).dropWhile Char.isDigit).length)
      ((a :: as).dropWhile Char.isDigit) = gr at hg1 hg2 ⊢
  rcases gr with ⟨g, r2⟩
  have h1 : ((a :: as).takeWhile Char.isDigit).all isVchar = true :=
    all_mono Char.isDigit isVchar digit_isVchar _ (all_takeWhile Char.isDigit (a :: as))
  have hallp : ((a :: as).takeWhile Char.isDigit ++ (g ++ r2.takeWhile isVchar)).all isVchar
      = true := by
    simp [List.all_append, h1, hg2, all_takeWhile]
  have hdecomp := takeWhile_dropWhile_decomp isVchar
    ((a :: as).takeWhile Char.isDigit ++ (g ++ r2.takeWhile isVchar))
    (r2.dropWhile isVchar) hallp
    (fun c t hct => dropWhile_head_false isVchar r2 c t hct)
  have happ : ((a :: as).takeWhile Char.isDigit ++ (g ++ r2.takeWhile isVchar)) ++
      r2.dropWhile isVchar = a :: as := by
    simp only [List.append_assoc, List.takeWhile_append_dropWhile]
    rw [hg1, List.takeWhile_append_dropWhile]
  rw [happ] at hdecomp
  rw [hdecomp.1, hdecomp.2]

theorem dotStarDollar_of_no_newline : ∀ l : List Char, '\n' ∉ l → dotStarDollar l = true := by
  intro l
  induction l with
  | nil => intro _; rfl
  | cons c t ih =>
    intro h
    have hc : ¬ c = '\n' := fun hh => h (hh ▸ List.mem_cons_self c t)
    have ht : '\n' ∉ t := fun hm => h (List.mem_cons_of_mem c hm)
    rw [dotStarDollar]
    simp [hc, ih ht]

theorem specGroupsAux_shape : ∀ (l : List Char) (b : Bool), specGroupsAux b l = true →
    l.all (fun c => c.isDigit || c == '.') = true
    ∧ (b = true → ∃ c t, l = c :: t ∧ c.isDigit = true) := by
  intro l
  induction l with
  | nil =>
    intro b hb
    refine ⟨rfl, ?_⟩
    intro hbt
    subst hbt
    simp [specGroupsAux] at hb
  | cons c t ih =>
    intro b hb
    cases b with
    | true =>
      rw [specGroupsAux, Bool.and_eq_true] at hb
      obtain ⟨hcd, hrest⟩ := hb
      refine ⟨?_, fun _ => ⟨c, t, rfl, hcd⟩⟩
      simp [List.all_cons, hcd, (ih false hrest).1]
    | false =>
      rw [specGroupsAux] at hb
      by_cases hc : c = '.'
      · rw [if_pos (by simp [hc])] at hb
        refine ⟨?_, fun hh => absurd hh Bool.false_ne_true⟩
        simp [List.all_cons, hc, (ih true hb).1]
      · rw [if_neg (by simp [hc]), Bool.and_eq_true] at hb
        obtain ⟨hcd, hrest⟩ := hb
        refine ⟨?_, fun hh => absurd hh Bool.false_ne_true⟩
        simp [List.all_cons, hcd, (ih false hrest).1]

theorem specVersionToken_eq_goodToken : ∀ cs : List Char, specVersionToken cs = goodToken cs := by
  intro cs
  cases hg : goodToken cs with
  | true =>
    rcases cs with _ | ⟨c, t⟩
    · simp [goodToken] at hg
    rw [goodToken, Bool.and_eq_true] at hg
    obtain ⟨hcd, hall⟩ := hg
    rw [specVersionToken]
    apply List.any_eq_true.mpr
    refine ⟨1, List.mem_range.mpr (by simp), ?_⟩
    have h1 : specNumericGroups [c] = true := by
      simp [specNumericGroups, specGroupsAux, hcd]
    have h2 : t.all isVchar = true := by
      rw [List.all_cons, Bool.and_eq_true] at hall
      exact hall.2
    simp [h1, h2, List.all_eq_true.mp h2]
  | false =>
    apply Bool.eq_false_iff.mpr
    intro htrue
    rw [specVersionToken] at htrue
    obtain ⟨k, _, hcond⟩ := List.any_eq_true.mp htrue
    rw [Bool.and_eq_true] at hcond
    obtain ⟨hng, hall⟩ := hcond
    obtain ⟨hdots, hhead⟩ := specGroupsAux_shape (cs.take k) true hng
    obtain ⟨c, t, hct, hcd⟩ := hhead rfl
    have hcs : cs = c :: (t ++ cs.drop k) := by
      conv_lhs => rw [← List.take_append_drop k cs]
      rw [hct, List.cons_append]
    have hvtake : (cs.take k).all isVchar = true :=
      all_mono _ isVchar (fun d hd => by
        rcases Bool.or_eq_true_iff.mp hd with h1 | h1
        · exact digit_isVchar d h1
        · have : d = '.' := by simpa using h1
          subst this
          decide) _ hdots
    have hgood : goodToken cs = true := by
      rw [hcs, goodToken, Bool.and_eq_true]
      have hvt : (c :: t).all isVchar = true := by
        rw [← hct]
        exact hvtake
      rw [List.all_cons, Bool.and_eq_true] at hvt
      refine ⟨hcd, ?_⟩
      simp [List.all_cons, List.all_append, hvt.1, hvt.2, hall]
    rw [hgood] at hg
    exact Bool.noConfusion hg

theorem pyAttempt_eq_specAttempt (after : List Char) (h : '\n' ∉ after) :
    pyAttempt after = specAttempt after := by
  rcases after with _ | ⟨a, as⟩
  · rfl
  by_cases hd : a.isDigit = true
  case neg =>
    have hdf : a.isDigit = false := Bool.eq_false_iff.mpr hd
    have hvm : versionMatch (a :: as) = none := by
      simp only [versionMatch]
      rw [List.takeWhile_cons_of_neg (by simp [hdf])]
      rfl
    have hsv : specVersionToken (takeUntilHyphen (a :: as)) = false := by
      rw [specVersionToken_eq_goodToken]
      unfold takeUntilHyphen
      by_cases ha : a = '-'
      · rw [List.takeWhile_cons_of_neg (by simp [ha])]
        rfl
      · rw [List.takeWhile_cons_of_pos (by simp [ha])]
        simp [goodToken, hdf]
    simp [pyAttempt, hvm, specAttempt, hsv]
  case pos =>
    rw [show pyAttempt (a :: as) =
        (match versionMatch (a :: as) with
         | some vr => if tailOk vr.snd then some vr.fst else none
         | none => none) from rfl]
    rw [versionMatch_eq a as hd]
    have hall : ((a :: as).takeWhile isVchar).all isVchar = true := all_takeWhile isVchar _
    have hsplit : (a :: as).takeWhile isVchar ++ (a :: as).dropWhile isVchar = a :: as :=
      List.takeWhile_append_dropWhile isVchar (a :: as)
    have hrunhead : (a :: as).takeWhile isVchar = a :: as.takeWhile isVchar :=
      List.takeWhile_cons_of_pos (digit_isVchar a hd)
    have hnohyp : ((a :: as).takeWhile isVchar).all (fun c => c != '-') = true :=
      all_mono isVchar _ isVchar_ne_hyphen _ hall
    rcases hre : (a :: as).dropWhile isVchar with _ | ⟨r, rs⟩
    · -- the whole input is the version token
      have hq : takeUntilHyphen (a :: as) = (a :: as).takeWhile isVchar := by
        unfold takeUntilHyphen
        conv_lhs => rw [← hsplit, hre, List.append_nil]
        exact takeWhile_eq_self_of_all _ _ hnohyp
      have hgt : goodToken ((a :: as).takeWhile isVchar) = true := by
        rw [hrunhead, goodToken, Bool.and_eq_true]
        exact ⟨hd, by rw [← hrunhead]; exact hall⟩
      simp [specAttempt, specVersionToken_eq_goodToken, hq, hgt, tailOk, dollarOk]
    · have hrv : isVchar r = false := dropWhile_head_false isVchar (a :: as) r rs hre
      have hmemr : ∀ x, x ∈ r :: rs → x ∈ a :: as := by
        intro x hx
        rw [← hsplit, hre]
        exact List.mem_append_right _ hx
      have hrn : ¬ r = '\n' := by
        intro hh
        subst hh
        exact h (hmemr _ (List.mem_cons_self _ _))
      by_cases hr : r = '-'
      · -- the version token ends at a hyphen
        subst hr
        have hnors : '\n' ∉ rs := fun hm => h (hmemr _ (List.mem_cons_of_mem _ hm))
        have htail : tailOk ('-' :: rs) = true := by
          rw [tailOk]
          simp [dotStarDollar_of_no_newline rs hnors]
        have hstop : List.takeWhile (fun c => c != '-') ('-' :: rs) = [] := by
          rw [List.takeWhile_cons_of_neg (by simp)]
        have hq : takeUntilHyphen (a :: as) = (a :: as).takeWhile isVchar := by
          unfold takeUntilHyphen
          conv_lhs => rw [← hsplit, hre]
          rw [takeWhile_append_of_all _ _ _ hnohyp, hstop, List.append_nil]
        have hgt : goodToken ((a :: as).takeWhile isVchar) = true := by
          rw [hrunhead, goodToken, Bool.and_eq_true]
          exact ⟨hd, by rw [← hrunhead]; exact hall⟩
        simp [specAttempt, specVersionToken_eq_goodToken, hq, hgt, htail]
      · -- the greedy match stops at a character outside the token alphabet
        have htail : tailOk (r :: rs) = false := by
          rw [tailOk]
          have hdol : dollarOk (r :: rs) = false := by
            rcases rs with _ | ⟨r2, rs2⟩
            · show (r == '\n') = false
              simp [hrn]
            · rfl
          simp [hdol, hr]
        have hstep : List.takeWhile (fun c => c != '-') (r :: rs) =
            r :: rs.takeWhile (fun c => c != '-') := by
          rw [List.takeWhile_cons_of_pos (by simp [hr])]
        have hq : takeUntilHyphen (a :: as) =
            (a :: as).takeWhile isVchar ++ r :: rs.takeWhile (fun c => c != '-') := by
          unfold takeUntilHyphen
          conv_lhs => rw [← hsplit, hre]
          rw [takeWhile_append_of_all _ _ _ hnohyp, hstep]
        have hgt : goodToken (takeUntilHyphen (a :: as)) = false := by
          rw [hq, hrunhead, List.cons_append, goodToken]
          apply Bool.and_eq_false_iff.mpr
          right
          simp [List.all_cons, List.all_append, hrv]
        simp [specAttempt, specVersionToken_eq_goodToken, hgt, htail]

theorem goMatch_eq_specFind : ∀ (cs pkgRev : List Char), '\n' ∉ cs →
    goMatch pkgRev cs = specFind pkgRev cs := by
  intro cs
  induction cs with
  | nil => intro pkgRev _; rfl
  | cons c rest ih =>
    intro pkgRev h
    have hc : ¬ c = '\n' := fun hh => h (hh ▸ List.mem_cons_self c rest)
    have hnr : '\n' ∉ rest := fun hm => h (List.mem_cons_of_mem c hm)
    rcases rest with _ | ⟨r, after⟩
    · rw [goMatch, specFind, if_neg (by simp [hc])]
      rfl
    · rw [goMatch, specFind, if_neg (by simp [hc])]
      by_cases hr : r = '-'
      · rw [if_pos (by simp [hr]), if_pos (by simp [hr])]
        have ha : '\n' ∉ after := fun hm => hnr (List.mem_cons_of_mem r hm)
        rw [pyAttempt_eq_specAttempt after ha]
        rcases specAttempt after with _ | v
        · exact ih (c :: pkgRev) hnr
        · rfl
      · rw [if_neg (by simp [hr]), if_neg (by simp [hr])]
        exact ih (c :: pkgRev) hnr

/-- C3: on newline-free filenames (the regex metacharacters `.` and `$`
treat a newline specially, and real filenames contain none), the regex
parser behaves exactly as the specification describes: a filename parses
iff its lowercased form ends in `.apk` and, after stripping the extension,
some hyphen is followed by a valid version token, in which case the
package is everything before the first such hyphen, the version is that
token, and `full_name` is the filename minus its extension. -/
theorem C3_parse_matches_spec (filename : String) (h : '\n' ∉ filename.toList) :
    parse_apk_filename filename = parse_apk_claim filename := by
  simp only [parse_apk_filename, parse_apk_claim]
  by_cases he : filename.toLower.endsWith ".apk" = true
  · rw [if_neg (by simp [he]), if_neg (by simp [he])]
    have hm : pyMatch ((String.mk (filename.toList.take (filename.toList.length - 4))).toList) =
        specFind [] ((String.mk (filename.toList.take (filename.toList.length - 4))).toList) := by
      unfold pyMatch
      apply goMatch_eq_specFind
      exact fun hmem => h (List.take_subset _ _ hmem)
    rw [hm]
  · have hef : filename.toLower.endsWith ".apk" = false := Bool.eq_false_iff.mpr he
    rw [if_pos (by simp [hef]), if_pos (by simp [hef])]

/-- Witness for C3 at the specification's own example filename. -/
theorem C3_parse_matches_spec_witness :
    ('\n' ∉ "com.example.app-1.2.3-release.apk".toList)
    ∧ parse_apk_filename "com.example.app-1.2.3-release.apk" =
        parse_apk_claim "com.example.app-1.2.3-release.apk" :=
  ⟨by decide, C3_parse_matches_spec "com.example.app-1.2.3-release.apk" (by decide)⟩

end GofileSpec
